import Mathlib

/-!
Verification of the crossing-detection and interval-aggregation core of the
AI-Footfall-Counter repository (backend/counter.py and backend/csv_logger.py).

The Python code is embedded shallowly: the per-track defaultdict maps of
PersonTracker become association lists keyed by track id, the per-frame body of
PersonTracker.process_frame becomes a pure state-transition function, and
CSVLogger becomes a record with a pure log_counts transition that returns the
emitted row.  Machine integers are modelled by Int (pixel coordinates, counter
values) and Nat (frame counts, track ids); Python floor division // is Int.fdiv.
-/

set_option autoImplicit false

namespace Footfall

/-- Orientation of the boundary line (PositionConfig.line_orientation). -/
inductive Orientation where
  | horizontal
  | vertical
  deriving DecidableEq, Repr

/-- Direction of the door (PositionConfig.door_direction). -/
inductive DoorDirection where
  | up
  | down
  | left
  | right
  deriving DecidableEq, Repr

/-- counter.py PositionConfig: pydantic model with the three fields.  Pydantic
validates the two Literal fields independently, so every combination of a
well-formed orientation and a well-formed direction is representable. -/
structure PositionConfig where
  line_orientation : Orientation
  door_direction : DoorDirection
  boundary_cords : Int
  deriving DecidableEq, Repr

/-- Pydantic validation of the line_orientation Literal field. -/
def parse_orientation (s : String) : Option Orientation :=
  if s = "horizontal" then some .horizontal
  else if s = "vertical" then some .vertical
  else none

/-- Pydantic validation of the door_direction Literal field. -/
def parse_door_direction (s : String) : Option DoorDirection :=
  if s = "up" then some .up
  else if s = "down" then some .down
  else if s = "left" then some .left
  else if s = "right" then some .right
  else none

/-- Constructing a PositionConfig from raw field values, as pydantic does:
each Literal field is validated on its own and the pair is never checked. -/
def mk_position_config (o d : String) (b : Int) : Option PositionConfig :=
  match parse_orientation o, parse_door_direction d with
  | some oo, some dd => some ⟨oo, dd, b⟩
  | _, _ => none

/-- The four (orientation, door_direction) pairs for which process_frame's
classification chain assigns a side; any other pair leaves Python's
current_position unbound. -/
def valid_pair (position : PositionConfig) : Bool :=
  match position.line_orientation, position.door_direction with
  | .horizontal, .down => true
  | .horizontal, .up => true
  | .vertical, .right => true
  | .vertical, .left => true
  | _, _ => false

/-- A tracked point: the center of a detection box. -/
structure Point where
  x : Int
  y : Int
  deriving DecidableEq, Repr

/-- A detection bounding box (x1, y1, x2, y2), as delivered by the tracker. -/
structure Box where
  x1 : Int
  y1 : Int
  x2 : Int
  y2 : Int
  deriving DecidableEq, Repr

/-- Center of a box, as computed in process_frame with Python floor
division: center = ((x1 + x2) // 2, (y1 + y2) // 2). -/
def center (b : Box) : Point :=
  ⟨(b.x1 + b.x2).fdiv 2, (b.y1 + b.y2).fdiv 2⟩

/-- The side of the boundary a point is on. -/
inductive Side where
  | outside
  | inside
  deriving DecidableEq, Repr

/-- The side classification performed inline in process_frame (lines 125-134):
for each of the four valid pairs the point is outside iff the stated
inequality holds; for an invalid pair no branch assigns current_position
(Python would raise UnboundLocalError), modelled as none. -/
def current_position (position : PositionConfig) (p : Point) : Option Side :=
  match position.line_orientation, position.door_direction with
  | .horizontal, .down =>
      some (if p.y < position.boundary_cords then .outside else .inside)
  | .horizontal, .up =>
      some (if p.y > position.boundary_cords then .outside else .inside)
  | .vertical, .right =>
      some (if p.x < position.boundary_cords then .outside else .inside)
  | .vertical, .left =>
      some (if p.x > position.boundary_cords then .outside else .inside)
  | _, _ => none

/-- min_track_length, fixed to 3 in PersonTracker.__init__. -/
def min_track_length : Nat := 3

/-- max_disappeared, fixed to 90 in PersonTracker.__init__. -/
def max_disappeared : Nat := 90

/-- The per-point outside test used inside _verify_crossing (lines 172-181):
note that for horizontal/down it tests y > boundary, the same body as the
horizontal/up case, unlike the inline classification in process_frame.
For an invalid pair Python leaves positions_outside unbound, modelled as
none. -/
def verify_outside_test (position : PositionConfig) : Option (Point → Bool) :=
  match position.line_orientation, position.door_direction with
  | .horizontal, .down => some (fun p => decide (p.y > position.boundary_cords))
  | .horizontal, .up => some (fun p => decide (p.y > position.boundary_cords))
  | .vertical, .right => some (fun p => decide (p.x < position.boundary_cords))
  | .vertical, .left => some (fun p => decide (p.x > position.boundary_cords))
  | _, _ => none

/-- The per-point side assignment used inside _verify_crossing, derived from
verify_outside_test, for comparison with current_position. -/
def verify_classify (position : PositionConfig) (p : Point) : Option Side :=
  (verify_outside_test position).map (fun test => if test p then .outside else .inside)

/-- PersonTracker._verify_crossing, applied to the track's history list:
reject tracks shorter than min_track_length, otherwise count the points that
pass the per-direction outside test and accept iff at least min_required
points lie on each side.  positions_inside is len(track) - positions_outside
as in the source. -/
def verify_crossing (track : List Point) (position : PositionConfig)
    (min_required : Nat) : Option Bool :=
  if track.length < min_track_length then some false
  else
    (verify_outside_test position).map (fun test =>
      let positions_outside := track.countP test
      let positions_inside := track.length - positions_outside
      decide (min_required ≤ positions_outside) &&
        decide (min_required ≤ positions_inside))

/-- One crossing_records entry, with the defaultdict default
first_position = None, last_position = None, counted = False. -/
structure CrossingRecord where
  first_position : Option Side
  last_position : Option Side
  counted : Bool
  deriving DecidableEq, Repr

/-- The defaultdict default value for crossing_records. -/
def default_record : CrossingRecord :=
  ⟨none, none, false⟩

/-- The counts dict of PersonTracker. -/
structure Counts where
  total : Int
  incoming : Int
  outgoing : Int
  deriving DecidableEq, Repr

/-- Association-list lookup, modelling Python dict access by key. -/
def alookup {α : Type} (k : Nat) : List (Nat × α) → Option α
  | [] => none
  | (k', v) :: rest => if k' = k then some v else alookup k rest

/-- Association-list update, modelling Python dict assignment: replace the
binding if the key is present, otherwise append it. -/
def ainsert {α : Type} (k : Nat) (v : α) : List (Nat × α) → List (Nat × α)
  | [] => [(k, v)]
  | (k', v') :: rest => if k' = k then (k, v) :: rest else (k', v') :: ainsert k v rest

/-- Association-list deletion, modelling Python del d[k]. -/
def aerase {α : Type} (k : Nat) : List (Nat × α) → List (Nat × α)
  | [] => []
  | (k', v') :: rest => if k' = k then rest else (k', v') :: aerase k rest

/-- Keys of an association list. -/
def akeys {α : Type} (m : List (Nat × α)) : List Nat :=
  m.map Prod.fst

/-- The mutable per-job state of PersonTracker: the three defaultdict maps
keyed by track id, plus the counts dict. -/
structure TrackerState where
  track_history : List (Nat × List Point)
  crossing_records : List (Nat × CrossingRecord)
  counts : Counts
  disappeared_tracks : List (Nat × Nat)
  deriving DecidableEq, Repr

/-- PersonTracker.__init__: all maps empty, all counters zero. -/
def initial_state : TrackerState :=
  ⟨[], [], ⟨0, 0, 0⟩, []⟩

/-- The track history after appending the new center and truncating: the
source appends, then pops the oldest point if the length exceeds
max_disappeared (lines 119-122). -/
def new_history (st : TrackerState) (track_id : Nat) (c : Point) : List Point :=
  let h1 := ((alookup track_id st.track_history).getD []) ++ [c]
  if max_disappeared < h1.length then h1.tail else h1

/-- The crossing record after the unconditional bookkeeping of lines 136-139:
first_position is set to the current side when it was unset (also when the
record is new), and last_position is set to the current side always. -/
def step_record (st : TrackerState) (track_id : Nat) (cur : Side) : CrossingRecord :=
  let r0 := (alookup track_id st.crossing_records).getD default_record
  let r1 := if r0.first_position = none then { r0 with first_position := some cur } else r0
  { r1 with last_position := some cur }

/-- The counts update of the acceptance branch (lines 147-152): incoming and
total go up on an outside-to-inside crossing, outgoing goes up and total
down on an inside-to-outside crossing. -/
def accept_counts (c : Counts) (first : Option Side) (cur : Side) : Counts :=
  if first = some .outside ∧ cur = .inside then
    { total := c.total + 1, incoming := c.incoming + 1, outgoing := c.outgoing }
  else if first = some .inside ∧ cur = .outside then
    { total := c.total - 1, incoming := c.incoming, outgoing := c.outgoing + 1 }
  else c

/-- The per-detection body of process_frame (lines 112-153) for one
(track_id, box) pair: append the center to the history, classify the
current side, update the crossing record, and when the crossing check
fires and _verify_crossing accepts, update the counts and set counted. -/
def process_detection (position : PositionConfig) (st : TrackerState)
    (det : Nat × Box) : Option TrackerState :=
  let track_id := det.1
  let c := center det.2
  let h2 := new_history st track_id c
  (current_position position c).bind (fun cur =>
    let r2 := step_record st track_id cur
    let hist' := ainsert track_id h2 st.track_history
    if r2.counted = false ∧ r2.first_position ≠ some cur ∧ min_track_length ≤ h2.length then
      match verify_crossing h2 position 1 with
      | none => none
      | some true =>
          some { st with
            track_history := hist',
            crossing_records := ainsert track_id { r2 with counted := true } st.crossing_records,
            counts := accept_counts st.counts r2.first_position cur }
      | some false =>
          some { st with
            track_history := hist',
            crossing_records := ainsert track_id r2 st.crossing_records }
    else
      some { st with
        track_history := hist',
        crossing_records := ainsert track_id r2 st.crossing_records })

/-- The loop body of update_disappeared_tracks for one known track id:
an id absent from the active set has its disappearance counter incremented
and is evicted by reset_track once the counter exceeds max_disappeared;
an active id has its counter reset to 0. -/
def disappeared_step (active : List Nat) (st : TrackerState) (track_id : Nat) : TrackerState :=
  if track_id ∈ active then
    { st with disappeared_tracks := ainsert track_id 0 st.disappeared_tracks }
  else if max_disappeared < (alookup track_id st.disappeared_tracks).getD 0 + 1 then
    { st with
      track_history := aerase track_id st.track_history,
      crossing_records := aerase track_id st.crossing_records,
      disappeared_tracks := aerase track_id st.disappeared_tracks }
  else
    { st with
      disappeared_tracks :=
        ainsert track_id ((alookup track_id st.disappeared_tracks).getD 0 + 1)
          st.disappeared_tracks }

/-- PersonTracker.update_disappeared_tracks: iterate the loop body over the
snapshot of the known track ids. -/
def update_disappeared_tracks (st : TrackerState) (active : List Nat) : TrackerState :=
  (akeys st.track_history).foldl (disappeared_step active) st

/-- PersonTracker.process_frame restricted to its counting state: process the
frame's detections in order, then run update_disappeared_tracks with the
detected ids as the active set.  none models the UnboundLocalError raised
under an invalid (orientation, door_direction) pair. -/
def process_frame (position : PositionConfig) (st : TrackerState)
    (detections : List (Nat × Box)) : Option TrackerState :=
  (detections.foldlM (process_detection position) st).map
    (fun st' => update_disappeared_tracks st' (detections.map Prod.fst))

/-- A run of process_frame over a list of frames. -/
def run_frames (position : PositionConfig) (st : TrackerState)
    (frames : List (List (Nat × Box))) : Option TrackerState :=
  frames.foldlM (process_frame position) st

/-- The state of csv_logger.CSVLogger, with the wall-clock start time in
whole seconds and fps as a positive frame rate.  The file itself is
represented by the rows the logger emits. -/
structure CSVLogger where
  start_time : Int
  fps : Nat
  last_interval : Nat
  interval_start_counts : Counts
  interval_seconds : Nat
  deriving DecidableEq, Repr

/-- One emitted CSV row. -/
structure LogRecord where
  timestamp : Int
  total : Int
  incoming_last_interval : Int
  outgoing_last_interval : Int
  deriving DecidableEq, Repr

/-- CSVLogger.get_timestamp: start time plus the whole seconds elapsed at
frame_count, int(frame_count / fps). -/
def get_timestamp (L : CSVLogger) (frame_count : Nat) : Int :=
  L.start_time + (frame_count / L.fps : Nat)

/-- The interval index of a frame, int(frame_count / fps / interval_seconds). -/
def current_interval (L : CSVLogger) (frame_count : Nat) : Nat :=
  frame_count / L.fps / L.interval_seconds

/-- CSVLogger.should_log: a fresh interval boundary has been passed. -/
def should_log (L : CSVLogger) (frame_count : Nat) : Bool :=
  decide (L.last_interval < current_interval L frame_count)

/-- CSVLogger.log_counts: when should_log or force, emit one row holding the
frame's timestamp, the running total and the incoming/outgoing deltas since
the interval baseline, then advance last_interval and replace the baseline
with a copy of the current counts; report whether a row was emitted. -/
def log_counts (L : CSVLogger) (frame_count : Nat) (current_counts : Counts)
    (force : Bool) : Bool × Option LogRecord × CSVLogger :=
  if should_log L frame_count || force then
    let rec0 : LogRecord :=
      { timestamp := get_timestamp L frame_count,
        total := current_counts.total,
        incoming_last_interval :=
          current_counts.incoming - L.interval_start_counts.incoming,
        outgoing_last_interval :=
          current_counts.outgoing - L.interval_start_counts.outgoing }
    (true, some rec0,
      { L with
        last_interval := current_interval L frame_count,
        interval_start_counts := current_counts })
  else
    (false, none, L)

/-- A run of log_counts with force = false over a list of
(frame_count, counts) calls, collecting the frame indices of the emitted
rows together with the rows. -/
def run_log (L : CSVLogger) : List (Nat × Counts) → CSVLogger × List (Nat × LogRecord)
  | [] => (L, [])
  | (f, c) :: rest =>
      match log_counts L f c false with
      | (_, some r, L') =>
          let out := run_log L' rest
          (out.1, (f, r) :: out.2)
      | (_, none, L') => run_log L' rest

/-! ### Association-list lemmas -/

theorem akeys_nil {α : Type} : akeys ([] : List (Nat × α)) = [] := rfl

theorem akeys_cons {α : Type} (pr : Nat × α) (m : List (Nat × α)) :
    akeys (pr :: m) = pr.1 :: akeys m := rfl

theorem alookup_ainsert_self {α : Type} (k : Nat) (v : α) (m : List (Nat × α)) :
    alookup k (ainsert k v m) = some v := by
  induction m with
  | nil => simp [ainsert, alookup]
  | cons hd tl ih =>
    simp only [ainsert]
    split_ifs with h2
    · simp [alookup]
    · simp only [alookup]
      rw [if_neg h2]
      exact ih

theorem alookup_ainsert_ne {α : Type} (k k' : Nat) (v : α) (m : List (Nat × α))
    (h : k' ≠ k) : alookup k (ainsert k' v m) = alookup k m := by
  induction m with
  | nil => simp [ainsert, alookup, h]
  | cons hd tl ih =>
    simp only [ainsert]
    split_ifs with h2
    · simp only [alookup]
      split_ifs with h3 h4 <;> first | rfl | omega
    · simp only [alookup]
      split_ifs with h3
      · rfl
      · exact ih

theorem alookup_aerase_ne {α : Type} (k k' : Nat) (m : List (Nat × α))
    (h : k' ≠ k) : alookup k (aerase k' m) = alookup k m := by
  induction m with
  | nil => simp [aerase, alookup]
  | cons hd tl ih =>
    simp only [aerase]
    split_ifs with h2
    · simp only [alookup]
      rw [if_neg (by omega : ¬hd.1 = k)]
    · simp only [alookup]
      split_ifs with h3
      · rfl
      · exact ih

theorem alookup_eq_none_iff {α : Type} (k : Nat) (m : List (Nat × α)) :
    alookup k m = none ↔ k ∉ akeys m := by
  induction m with
  | nil => simp [alookup, akeys_nil]
  | cons hd tl ih =>
    simp only [alookup, akeys_cons, List.mem_cons]
    split_ifs with h
    · simp [h]
    · rw [ih]
      constructor
      · intro hk hor
        rcases hor with h1 | h1
        · exact h h1.symm
        · exact hk h1
      · intro hk h1
        exact hk (Or.inr h1)

theorem alookup_aerase_self {α : Type} (k : Nat) (m : List (Nat × α))
    (h : (akeys m).Nodup) : alookup k (aerase k m) = none := by
  induction m with
  | nil => simp [aerase, alookup]
  | cons hd tl ih =>
    simp only [akeys_cons, List.nodup_cons] at h
    simp only [aerase]
    split_ifs with h2
    · rw [alookup_eq_none_iff]
      rw [h2] at h
      exact h.1
    · simp only [alookup]
      rw [if_neg h2]
      exact ih h.2

theorem akeys_aerase_sublist {α : Type} (k : Nat) (m : List (Nat × α)) :
    (akeys (aerase k m)).Sublist (akeys m) := by
  induction m with
  | nil => simp [aerase, akeys_nil]
  | cons hd tl ih =>
    simp only [aerase]
    split_ifs with h
    · rw [akeys_cons]
      exact List.sublist_cons_self hd.1 (akeys tl)
    · rw [akeys_cons, akeys_cons]
      exact List.Sublist.cons₂ hd.1 ih

theorem mem_akeys_ainsert {α : Type} (a k : Nat) (v : α) (m : List (Nat × α)) :
    a ∈ akeys (ainsert k v m) ↔ a = k ∨ a ∈ akeys m := by
  induction m with
  | nil => simp [ainsert, akeys]
  | cons hd tl ih =>
    simp only [ainsert]
    split_ifs with h2
    · simp only [akeys_cons, List.mem_cons, h2]
      tauto
    · simp only [akeys_cons, List.mem_cons, ih]
      tauto

theorem akeys_ainsert_nodup {α : Type} (k : Nat) (v : α) (m : List (Nat × α))
    (h : (akeys m).Nodup) : (akeys (ainsert k v m)).Nodup := by
  induction m with
  | nil => simp [ainsert, akeys]
  | cons hd tl ih =>
    simp only [akeys_cons, List.nodup_cons] at h
    simp only [ainsert]
    split_ifs with h2
    · simp only [akeys_cons, List.nodup_cons]
      rw [← h2]
      exact ⟨h.1, h.2⟩
    · simp only [akeys_cons, List.nodup_cons]
      refine ⟨?_, ih h.2⟩
      intro hmem
      rcases (mem_akeys_ainsert hd.1 k v tl).mp hmem with h3 | h3
      · exact h2 h3
      · exact h.1 h3

/-! ### Generic fold lemmas -/

theorem countP_add_countP_not {α : Type} (p : α → Bool) (l : List α) :
    l.countP p + l.countP (fun a => !(p a)) = l.length := by
  induction l with
  | nil => simp
  | cons a t ih => by_cases h : p a <;> simp [List.countP_cons, h] <;> omega

theorem option_foldlM_preserve {σ α : Type} (g : σ → α → Option σ) (P : σ → Prop)
    (hg : ∀ s a s', g s a = some s' → P s → P s') :
    ∀ (l : List α) (s s' : σ), l.foldlM g s = some s' → P s → P s' := by
  intro l
  induction l with
  | nil =>
    intro s s' hfold hp
    simp only [List.foldlM_nil] at hfold
    cases hfold
    exact hp
  | cons a t ih =>
    intro s s' hfold hp
    simp only [List.foldlM_cons] at hfold
    cases hga : g s a with
    | none => rw [hga] at hfold; cases hfold
    | some s1 =>
      rw [hga] at hfold
      exact ih s1 s' hfold (hg s a s1 hga hp)

/-! ### Lemmas about update_disappeared_tracks -/

theorem disappeared_step_counts (active : List Nat) (st : TrackerState) (k : Nat) :
    (disappeared_step active st k).counts = st.counts := by
  rw [disappeared_step]
  split_ifs <;> rfl

theorem foldl_disappeared_counts (active : List Nat) :
    ∀ (l : List Nat) (st : TrackerState),
      (l.foldl (disappeared_step active) st).counts = st.counts := by
  intro l
  induction l with
  | nil => intro st; rfl
  | cons k t ih =>
    intro st
    rw [List.foldl_cons, ih, disappeared_step_counts]

theorem update_disappeared_counts (st : TrackerState) (active : List Nat) :
    (update_disappeared_tracks st active).counts = st.counts :=
  foldl_disappeared_counts active (akeys st.track_history) st

/-- A disappeared_step for a key other than id leaves all three of id's map
entries unchanged. -/
theorem disappeared_step_other (active : List Nat) (st : TrackerState) (k id : Nat)
    (h : k ≠ id) :
    alookup id (disappeared_step active st k).track_history = alookup id st.track_history ∧
    alookup id (disappeared_step active st k).crossing_records = alookup id st.crossing_records ∧
    alookup id (disappeared_step active st k).disappeared_tracks = alookup id st.disappeared_tracks := by
  rw [disappeared_step]
  split_ifs with h1 h2
  · exact ⟨rfl, rfl, alookup_ainsert_ne id k 0 st.disappeared_tracks h⟩
  · exact ⟨alookup_aerase_ne id k st.track_history h,
      alookup_aerase_ne id k st.crossing_records h,
      alookup_aerase_ne id k st.disappeared_tracks h⟩
  · exact ⟨rfl, rfl, alookup_ainsert_ne id k _ st.disappeared_tracks h⟩

/-- Folding disappeared_step over keys avoiding id leaves id's entries alone. -/
theorem foldl_disappeared_other (active : List Nat) (id : Nat) :
    ∀ (l : List Nat), id ∉ l → ∀ (st : TrackerState),
      alookup id (l.foldl (disappeared_step active) st).track_history = alookup id st.track_history ∧
      alookup id (l.foldl (disappeared_step active) st).crossing_records = alookup id st.crossing_records ∧
      alookup id (l.foldl (disappeared_step active) st).disappeared_tracks = alookup id st.disappeared_tracks := by
  intro l
  induction l with
  | nil => intro _ st; exact ⟨rfl, rfl, rfl⟩
  | cons k t ih =>
    intro hmem st
    rw [List.foldl_cons]
    have hk : k ≠ id := fun hh => hmem (hh ▸ List.mem_cons_self k t)
    have ht : id ∉ t := fun hh => hmem (List.mem_cons_of_mem k hh)
    have h1 := disappeared_step_other active st k id hk
    have h2 := ih ht (disappeared_step active st k)
    exact ⟨h2.1.trans h1.1, h2.2.1.trans h1.2.1, h2.2.2.trans h1.2.2⟩

/-- disappeared_step only ever leaves the history alone or erases its own key. -/
theorem disappeared_step_history (active : List Nat) (st : TrackerState) (k : Nat) :
    (disappeared_step active st k).track_history = st.track_history ∨
    (disappeared_step active st k).track_history = aerase k st.track_history := by
  rw [disappeared_step]
  split_ifs <;> simp

/-- update_disappeared_tracks never adds a history key, so key distinctness
is preserved. -/
theorem foldl_disappeared_nodup (active : List Nat) :
    ∀ (l : List Nat) (st : TrackerState), (akeys st.track_history).Nodup →
      (akeys (l.foldl (disappeared_step active) st).track_history).Nodup := by
  intro l
  induction l with
  | nil => intro st h; exact h
  | cons k t ih =>
    intro st h
    rw [List.foldl_cons]
    refine ih (disappeared_step active st k) ?_
    rcases disappeared_step_history active st k with h1 | h1
    · rw [h1]; exact h
    · rw [h1]; exact (akeys_aerase_sublist k st.track_history).nodup h

/-- Well-formedness of the three per-track dicts: Python dict keys are
distinct. -/
def wf_maps (st : TrackerState) : Prop :=
  (akeys st.track_history).Nodup ∧ (akeys st.crossing_records).Nodup ∧
    (akeys st.disappeared_tracks).Nodup

/-- Any successful process_detection step updates exactly the detected id's
history binding and crossing record, and leaves the disappearance counters
and other ids' bindings alone. -/
theorem process_detection_shape (position : PositionConfig) (st : TrackerState)
    (det : Nat × Box) (st' : TrackerState)
    (h : process_detection position st det = some st') :
    ∃ r, st'.track_history = ainsert det.1 (new_history st det.1 (center det.2)) st.track_history ∧
      st'.crossing_records = ainsert det.1 r st.crossing_records ∧
      st'.disappeared_tracks = st.disappeared_tracks := by
  rw [process_detection] at h
  cases hc : current_position position (center det.2) with
  | none => rw [hc] at h; cases h
  | some cur =>
    rw [hc] at h
    simp only [Option.some_bind] at h
    split at h
    · split at h
      · cases h
      · simp only [Option.some.injEq] at h
        subst h
        exact ⟨_, rfl, rfl, rfl⟩
      · simp only [Option.some.injEq] at h
        subst h
        exact ⟨_, rfl, rfl, rfl⟩
    · simp only [Option.some.injEq] at h
      subst h
      exact ⟨_, rfl, rfl, rfl⟩

/-- The counts can only stay, record an entry, or record an exit in one
process_detection step. -/
theorem process_detection_counts (position : PositionConfig) (st : TrackerState)
    (det : Nat × Box) (st' : TrackerState)
    (h : process_detection position st det = some st') :
    st'.counts = st.counts ∨
      (st'.counts.total = st.counts.total + 1 ∧
        st'.counts.incoming = st.counts.incoming + 1 ∧
        st'.counts.outgoing = st.counts.outgoing) ∨
      (st'.counts.total = st.counts.total - 1 ∧
        st'.counts.incoming = st.counts.incoming ∧
        st'.counts.outgoing = st.counts.outgoing + 1) := by
  rw [process_detection] at h
  cases hc : current_position position (center det.2) with
  | none => rw [hc] at h; cases h
  | some cur =>
    rw [hc] at h
    simp only [Option.some_bind] at h
    split at h
    · split at h
      · cases h
      · simp only [Option.some.injEq] at h
        subst h
        rw [accept_counts]
        split_ifs
        · right; left; exact ⟨rfl, rfl, rfl⟩
        · right; right; exact ⟨rfl, rfl, rfl⟩
        · left; rfl
      · simp only [Option.some.injEq] at h
        subst h
        left; rfl
    · simp only [Option.some.injEq] at h
      subst h
      left; rfl

theorem process_detection_wf (position : PositionConfig) (st : TrackerState)
    (det : Nat × Box) (st' : TrackerState)
    (h : process_detection position st det = some st') (hw : wf_maps st) :
    wf_maps st' := by
  obtain ⟨r, h1, h2, h3⟩ := process_detection_shape position st det st' h
  refine ⟨?_, ?_, ?_⟩
  · rw [h1]; exact akeys_ainsert_nodup _ _ _ hw.1
  · rw [h2]; exact akeys_ainsert_nodup _ _ _ hw.2.1
  · rw [h3]; exact hw.2.2

theorem disappeared_step_wf (active : List Nat) (st : TrackerState) (k : Nat)
    (hw : wf_maps st) : wf_maps (disappeared_step active st k) := by
  rw [disappeared_step]
  split_ifs
  · exact ⟨hw.1, hw.2.1, akeys_ainsert_nodup _ _ _ hw.2.2⟩
  · exact ⟨(akeys_aerase_sublist _ _).nodup hw.1,
      (akeys_aerase_sublist _ _).nodup hw.2.1,
      (akeys_aerase_sublist _ _).nodup hw.2.2⟩
  · exact ⟨hw.1, hw.2.1, akeys_ainsert_nodup _ _ _ hw.2.2⟩

theorem foldl_disappeared_wf (active : List Nat) :
    ∀ (l : List Nat) (st : TrackerState), wf_maps st →
      wf_maps (l.foldl (disappeared_step active) st) := by
  intro l
  induction l with
  | nil => intro st h; exact h
  | cons k t ih =>
    intro st h
    rw [List.foldl_cons]
    exact ih _ (disappeared_step_wf active st k h)

theorem update_disappeared_wf (st : TrackerState) (active : List Nat)
    (hw : wf_maps st) : wf_maps (update_disappeared_tracks st active) :=
  foldl_disappeared_wf active _ st hw

theorem process_frame_wf (position : PositionConfig) (st : TrackerState)
    (detections : List (Nat × Box)) (st' : TrackerState)
    (h : process_frame position st detections = some st') (hw : wf_maps st) :
    wf_maps st' := by
  rw [process_frame] at h
  cases hf : detections.foldlM (process_detection position) st with
  | none => rw [hf] at h; cases h
  | some st1 =>
    rw [hf] at h
    simp only [Option.map_some', Option.some.injEq] at h
    subst h
    exact update_disappeared_wf st1 _
      (option_foldlM_preserve _ wf_maps
        (fun s a s' hs hp => process_detection_wf position s a s' hs hp)
        detections st st1 hf hw)

theorem initial_state_wf : wf_maps initial_state :=
  ⟨List.nodup_nil, List.nodup_nil, List.nodup_nil⟩

/-- What update_disappeared_tracks does to one known track id, by cases on
whether the id is active and on its disappearance counter. -/
theorem update_disappeared_id_spec (st : TrackerState) (active : List Nat) (id : Nat)
    (hw : wf_maps st) (hmem : id ∈ akeys st.track_history) :
    (id ∈ active →
      alookup id (update_disappeared_tracks st active).disappeared_tracks = some 0 ∧
      alookup id (update_disappeared_tracks st active).track_history = alookup id st.track_history ∧
      alookup id (update_disappeared_tracks st active).crossing_records = alookup id st.crossing_records) ∧
    (id ∉ active → max_disappeared < (alookup id st.disappeared_tracks).getD 0 + 1 →
      alookup id (update_disappeared_tracks st active).track_history = none ∧
      alookup id (update_disappeared_tracks st active).crossing_records = none ∧
      alookup id (update_disappeared_tracks st active).disappeared_tracks = none) ∧
    (id ∉ active → ¬ max_disappeared < (alookup id st.disappeared_tracks).getD 0 + 1 →
      alookup id (update_disappeared_tracks st active).disappeared_tracks =
        some ((alookup id st.disappeared_tracks).getD 0 + 1) ∧
      alookup id (update_disappeared_tracks st active).track_history = alookup id st.track_history ∧
      alookup id (update_disappeared_tracks st active).crossing_records = alookup id st.crossing_records) := by
  obtain ⟨l1, l2, hsplit⟩ := List.append_of_mem hmem
  have hnd : (l1 ++ id :: l2).Nodup := hsplit ▸ hw.1
  have hid1 : id ∉ l1 := by
    intro hin
    have := List.disjoint_of_nodup_append hnd hin (List.mem_cons_self id l2)
    exact this
  have hid2 : id ∉ l2 := by
    have h2 : (id :: l2).Nodup := (List.nodup_append.mp hnd).2.1
    exact (List.nodup_cons.mp h2).1
  have hud : update_disappeared_tracks st active =
      l2.foldl (disappeared_step active)
        (disappeared_step active (l1.foldl (disappeared_step active) st) id) := by
    rw [update_disappeared_tracks, hsplit, List.foldl_append, List.foldl_cons]
  have h1 := foldl_disappeared_other active id l1 hid1 st
  have hwf1 : wf_maps (l1.foldl (disappeared_step active) st) :=
    foldl_disappeared_wf active l1 st hw
  refine ⟨?_, ?_, ?_⟩
  · intro ha
    have hstep : disappeared_step active (l1.foldl (disappeared_step active) st) id =
        { l1.foldl (disappeared_step active) st with
          disappeared_tracks :=
            ainsert id 0 (l1.foldl (disappeared_step active) st).disappeared_tracks } := by
      rw [disappeared_step, if_pos ha]
    have h2 := foldl_disappeared_other active id l2 hid2
      (disappeared_step active (l1.foldl (disappeared_step active) st) id)
    rw [hud]
    refine ⟨?_, ?_, ?_⟩
    · rw [h2.2.2, hstep]
      exact alookup_ainsert_self id 0 _
    · rw [h2.1, hstep]
      exact h1.1
    · rw [h2.2.1, hstep]
      exact h1.2.1
  · intro ha hcnt
    have hcnt' : max_disappeared <
        (alookup id (l1.foldl (disappeared_step active) st).disappeared_tracks).getD 0 + 1 := by
      rw [h1.2.2]; exact hcnt
    have hstep : disappeared_step active (l1.foldl (disappeared_step active) st) id =
        { l1.foldl (disappeared_step active) st with
          track_history := aerase id (l1.foldl (disappeared_step active) st).track_history,
          crossing_records := aerase id (l1.foldl (disappeared_step active) st).crossing_records,
          disappeared_tracks := aerase id (l1.foldl (disappeared_step active) st).disappeared_tracks } := by
      rw [disappeared_step, if_neg ha, if_pos hcnt']
    have h2 := foldl_disappeared_other active id l2 hid2
      (disappeared_step active (l1.foldl (disappeared_step active) st) id)
    rw [hud]
    refine ⟨?_, ?_, ?_⟩
    · rw [h2.1, hstep]
      exact alookup_aerase_self id _ hwf1.1
    · rw [h2.2.1, hstep]
      exact alookup_aerase_self id _ hwf1.2.1
    · rw [h2.2.2, hstep]
      exact alookup_aerase_self id _ hwf1.2.2
  · intro ha hcnt
    have hcnt' : ¬ max_disappeared <
        (alookup id (l1.foldl (disappeared_step active) st).disappeared_tracks).getD 0 + 1 := by
      rw [h1.2.2]; exact hcnt
    have hstep : disappeared_step active (l1.foldl (disappeared_step active) st) id =
        { l1.foldl (disappeared_step active) st with
          disappeared_tracks :=
            ainsert id
              ((alookup id (l1.foldl (disappeared_step active) st).disappeared_tracks).getD 0 + 1)
              (l1.foldl (disappeared_step active) st).disappeared_tracks } := by
      rw [disappeared_step, if_neg ha, if_neg hcnt']
    have h2 := foldl_disappeared_other active id l2 hid2
      (disappeared_step active (l1.foldl (disappeared_step active) st) id)
    rw [hud]
    refine ⟨?_, ?_, ?_⟩
    · rw [h2.2.2, hstep]
      have := alookup_ainsert_self id
        ((alookup id (l1.foldl (disappeared_step active) st).disappeared_tracks).getD 0 + 1)
        (l1.foldl (disappeared_step active) st).disappeared_tracks
      rw [this, h1.2.2]
    · rw [h2.1, hstep]
      exact h1.1
    · rw [h2.2.1, hstep]
      exact h1.2.1

/-- update_disappeared_tracks does not touch an id that is no longer a
history key (in particular an already evicted id stays evicted). -/
theorem update_disappeared_absent_id (st : TrackerState) (active : List Nat) (id : Nat)
    (hmem : id ∉ akeys st.track_history) :
    alookup id (update_disappeared_tracks st active).track_history = alookup id st.track_history ∧
    alookup id (update_disappeared_tracks st active).crossing_records = alookup id st.crossing_records ∧
    alookup id (update_disappeared_tracks st active).disappeared_tracks = alookup id st.disappeared_tracks :=
  foldl_disappeared_other active id (akeys st.track_history) hmem st

/-! ### Concrete scenario: boundary 200, horizontal, door down, one track
whose center y passes 250, 240, 230, 190, 180. -/

def scenario_position : PositionConfig := ⟨.horizontal, .down, 200⟩

def scenario_box (y : Int) : Box := ⟨0, y, 0, y⟩

def scenario_frames : List (List (Nat × Box)) :=
  [[(1, scenario_box 250)], [(1, scenario_box 240)], [(1, scenario_box 230)],
   [(1, scenario_box 190)], [(1, scenario_box 180)]]

/-- C1: the claim states that the per-point side rules of _verify_crossing
agree with the process_frame classification for the down direction; at the
concrete config (horizontal, down, boundary 200), the point (0, 250) is
classified inside by process_frame (250 < 200 is false) but outside by
_verify_crossing's rule (250 > 200), so the rules disagree for down. -/
theorem C1_counterexample :
    verify_classify ⟨.horizontal, .down, 200⟩ ⟨0, 250⟩ ≠
      current_position ⟨.horizontal, .down, 200⟩ ⟨0, 250⟩ := by
  decide

/-- C1 (amended): the per-point side rules used inside _verify_crossing agree
with the process_frame classification for the up, right and left door
directions, and differ only for down, where _verify_crossing reuses the up
rule body (y > boundary); for down the two rules agree at a point iff its y
coordinate equals the boundary. -/
theorem C1_side_rules (b : Int) (p : Point) :
    verify_classify ⟨.horizontal, .up, b⟩ p = current_position ⟨.horizontal, .up, b⟩ p ∧
    verify_classify ⟨.vertical, .right, b⟩ p = current_position ⟨.vertical, .right, b⟩ p ∧
    verify_classify ⟨.vertical, .left, b⟩ p = current_position ⟨.vertical, .left, b⟩ p ∧
    verify_classify ⟨.horizontal, .down, b⟩ p = current_position ⟨.horizontal, .up, b⟩ p ∧
    (verify_classify ⟨.horizontal, .down, b⟩ p = current_position ⟨.horizontal, .down, b⟩ p ↔
      p.y = b) := by
  refine ⟨?_, ?_, ?_, ?_, ?_⟩
  · by_cases h : p.y > b <;>
      simp [verify_classify, verify_outside_test, current_position, h]
  · by_cases h : p.x < b <;>
      simp [verify_classify, verify_outside_test, current_position, h]
  · by_cases h : p.x > b <;>
      simp [verify_classify, verify_outside_test, current_position, h]
  · by_cases h : p.y > b <;>
      simp [verify_classify, verify_outside_test, current_position, h]
  · rcases lt_trichotomy p.y b with h | h | h
    · have h1 : ¬ p.y > b := by omega
      have h2 : p.y ≠ b := by omega
      simp [verify_classify, verify_outside_test, current_position, h, h1, h2]
    · have h1 : ¬ p.y > b := by omega
      have h2 : ¬ p.y < b := by omega
      simp [verify_classify, verify_outside_test, current_position, h, h1, h2]
    · have h1 : ¬ p.y < b := by omega
      have h2 : p.y ≠ b := by omega
      simp [verify_classify, verify_outside_test, current_position, h, h1, h2]

/-- C2: the claim states that the scenario run ends with incoming = 1 and
total = 1; running the embedded process_frame over the five frames ends
with incoming = 0 and total = -1 instead (the track starts inside under
the down rule and is counted as an exit). -/
theorem C2_counterexample :
    (run_frames scenario_position initial_state scenario_frames).map
      (fun st => decide (st.counts.incoming = 1 ∧ st.counts.total = 1)) = some false := by
  decide

/-- C2 (amended): in the scenario the track is verified as a crossing at the
4th frame, once the history is at least min_track_length long and both sides
hold at least one point, but since point (0, 250) is first classified
inside (door down: outside means y < 200), the crossing is an exit: the
counters end at outgoing = 1, incoming = 0, total = -1, with the track
marked counted. -/
theorem C2_scenario :
    (run_frames scenario_position initial_state (scenario_frames.take 3)).map
      (fun st => (st.counts, (alookup 1 st.crossing_records).map (fun r => r.counted))) =
        some (⟨0, 0, 0⟩, some false) ∧
    (run_frames scenario_position initial_state (scenario_frames.take 4)).map
      (fun st => (st.counts, (alookup 1 st.crossing_records).map (fun r => r.counted))) =
        some (⟨-1, 0, 1⟩, some true) ∧
    (run_frames scenario_position initial_state scenario_frames).map
      (fun st => (st.counts, (alookup 1 st.crossing_records).map (fun r => r.counted))) =
        some (⟨-1, 0, 1⟩, some true) := by
  refine ⟨?_, ?_, ?_⟩ <;> decide

/-- C9: a negative total is reachable by a concrete well-formed run under a
valid configuration: the scenario track is first observed inside and
verified exiting before any entry was counted, ending at total = -1; the
resulting state is not an error and further frames keep processing. -/
theorem C9_negative_total :
    ∃ st, run_frames scenario_position initial_state scenario_frames = some st ∧
      st.counts.total < 0 ∧ (process_frame scenario_position st []).isSome = true :=
  ⟨_, rfl, by decide, by decide⟩

/-- Under an invalid (orientation, door_direction) pair no branch of the
classification chain fires, so no side is produced. -/
theorem current_position_invalid (position : PositionConfig) (p : Point)
    (h : valid_pair position = false) : current_position position p = none := by
  obtain ⟨o, d, b⟩ := position
  cases o <;> cases d <;> (try rfl) <;> simp [valid_pair] at h

/-- C3: the claim states every invalid (orientation, doorDirection) pair
fails with a ConfigurationError at setup; in fact pydantic validates the two
Literal fields independently, so the invalid pair (horizontal, left)
constructs successfully, and the frame-time classification under it is the
step that fails (no side is produced). -/
theorem C3_counterexample :
    mk_position_config "horizontal" "left" 200 = some ⟨.horizontal, .left, 200⟩ ∧
    valid_pair ⟨.horizontal, .left, 200⟩ = false ∧
    current_position ⟨.horizontal, .left, 200⟩ ⟨0, 0⟩ = none := by
  refine ⟨?_, rfl, rfl⟩
  decide

/-- C3 (amended): PositionConfig construction succeeds exactly when each field
value is individually well-formed — the four invalid pairs are accepted at
setup — and under an invalid pair the per-frame work fails at classification
time: no side is assigned and the detection step produces no state. -/
theorem C3_validation :
    (∀ (o d : String) (b : Int),
      (mk_position_config o d b).isSome = true ↔
        ((o = "horizontal" ∨ o = "vertical") ∧
          (d = "up" ∨ d = "down" ∨ d = "left" ∨ d = "right"))) ∧
    (∀ (position : PositionConfig) (p : Point),
      valid_pair position = false → current_position position p = none) ∧
    (∀ (position : PositionConfig) (st : TrackerState) (det : Nat × Box),
      valid_pair position = false → process_detection position st det = none) := by
  refine ⟨?_, current_position_invalid, ?_⟩
  · intro o d b
    rw [mk_position_config, parse_orientation, parse_door_direction]
    split_ifs <;> simp_all
  · intro position st det h
    rw [process_detection]
    rw [current_position_invalid position (center det.2) h]
    rfl

/-- C3 witness: the invalid pair (horizontal, left) never classifies a
point. -/
theorem C3_witness : current_position ⟨.horizontal, .left, 200⟩ ⟨0, 0⟩ = none :=
  C3_validation.2.1 ⟨.horizontal, .left, 200⟩ ⟨0, 0⟩ rfl

/-- C4: _verify_crossing returns False whenever the history is shorter than
min_track_length (3); on a long enough history it accepts iff at least
min_required points are classified outside and at least min_required points
are classified inside by its per-direction rule; unconditionally it never
accepts with fewer than min_required points on either side. -/
theorem C4_verify_crossing (track : List Point) (position : PositionConfig)
    (min_required : Nat) (test : Point → Bool)
    (htest : verify_outside_test position = some test) :
    (track.length < min_track_length →
      verify_crossing track position min_required = some false) ∧
    (min_track_length ≤ track.length →
      (verify_crossing track position min_required = some true ↔
        min_required ≤ track.countP test ∧
        min_required ≤ track.countP (fun p => !(test p)))) ∧
    (verify_crossing track position min_required = some true →
      min_required ≤ track.countP test ∧
      min_required ≤ track.countP (fun p => !(test p))) := by
  have hc := countP_add_countP_not test track
  by_cases hlen : track.length < min_track_length
  · refine ⟨fun _ => ?_, fun h => absurd h (by omega), fun h => ?_⟩
    · rw [verify_crossing, if_pos hlen]
    · rw [verify_crossing, if_pos hlen] at h
      simp at h
  · have hiff : verify_crossing track position min_required = some true ↔
        min_required ≤ track.countP test ∧
        min_required ≤ track.countP (fun p => !(test p)) := by
      rw [verify_crossing, if_neg hlen, htest]
      simp only [Option.map_some', Option.some.injEq, Bool.and_eq_true,
        decide_eq_true_eq]
      constructor
      · intro h
        exact ⟨h.1, by omega⟩
      · intro h
        exact ⟨h.1, by omega⟩
    exact ⟨fun h => absurd h hlen, fun _ => hiff, hiff.mp⟩

/-- C4 witness: a two-point history is rejected outright. -/
theorem C4_witness :
    verify_crossing [⟨0, 250⟩, ⟨0, 190⟩] scenario_position 1 = some false :=
  (C4_verify_crossing [⟨0, 250⟩, ⟨0, 190⟩] scenario_position 1
    (fun p => decide (p.y > (200 : Int))) rfl).1 (by decide)

/-- C5: the invariant total = incoming - outgoing holds in the initial state
and is preserved by every process_frame step; each detection step changes
the counters not at all, or by total +1 in lockstep with incoming +1, or by
total -1 in lockstep with outgoing +1. -/
theorem C5_total_invariant :
    (initial_state.counts.total =
      initial_state.counts.incoming - initial_state.counts.outgoing) ∧
    (∀ (position : PositionConfig) (st : TrackerState) (det : Nat × Box)
        (st' : TrackerState),
      process_detection position st det = some st' →
      st'.counts = st.counts ∨
        (st'.counts.total = st.counts.total + 1 ∧
          st'.counts.incoming = st.counts.incoming + 1 ∧
          st'.counts.outgoing = st.counts.outgoing) ∨
        (st'.counts.total = st.counts.total - 1 ∧
          st'.counts.incoming = st.counts.incoming ∧
          st'.counts.outgoing = st.counts.outgoing + 1)) ∧
    (∀ (position : PositionConfig) (st : TrackerState)
        (detections : List (Nat × Box)) (st' : TrackerState),
      process_frame position st detections = some st' →
      st.counts.total = st.counts.incoming - st.counts.outgoing →
      st'.counts.total = st'.counts.incoming - st'.counts.outgoing) := by
  refine ⟨by decide, process_detection_counts, ?_⟩
  intro position st detections st' h hinv
  rw [process_frame] at h
  cases hf : detections.foldlM (process_detection position) st with
  | none => rw [hf] at h; cases h
  | some st1 =>
    rw [hf] at h
    simp only [Option.map_some', Option.some.injEq] at h
    subst h
    rw [update_disappeared_counts]
    refine option_foldlM_preserve (process_detection position)
      (fun s => s.counts.total = s.counts.incoming - s.counts.outgoing)
      ?_ detections st st1 hf hinv
    intro s a s' hs hp
    rcases process_detection_counts position s a s' hs with h1 | h1 | h1
    · rw [h1]; exact hp
    · omega
    · omega

/-- C5 witness: after a concrete frame the invariant still holds. -/
theorem C5_witness :
    (process_frame scenario_position initial_state [(1, scenario_box 250)]).map
      (fun st => decide (st.counts.total = st.counts.incoming - st.counts.outgoing)) =
      some true := by
  cases hq : process_frame scenario_position initial_state [(1, scenario_box 250)] with
  | none => exact absurd hq (by decide)
  | some st' =>
    have h := C5_total_invariant.2.2 scenario_position initial_state
      [(1, scenario_box 250)] st' hq (by decide)
    simp only [Option.map_some', Option.some.injEq]
    exact decide_eq_true h

/-- The counted flag surviving the unconditional record bookkeeping. -/
theorem step_record_counted (st : TrackerState) (track_id : Nat) (cur : Side) :
    (step_record st track_id cur).counted =
      ((alookup track_id st.crossing_records).getD default_record).counted := by
  simp only [step_record]
  split_ifs <;> rfl

/-- Processing a detection of a track whose record is already counted leaves
the counters untouched and the record counted. -/
theorem process_detection_counted_stays (position : PositionConfig)
    (st : TrackerState) (det : Nat × Box) (st' : TrackerState) (r : CrossingRecord)
    (h : process_detection position st det = some st')
    (hr : alookup det.1 st.crossing_records = some r) (hc : r.counted = true) :
    st'.counts = st.counts ∧
      ∃ r', alookup det.1 st'.crossing_records = some r' ∧ r'.counted = true := by
  rw [process_detection] at h
  cases hcur : current_position position (center det.2) with
  | none => rw [hcur] at h; cases h
  | some cur =>
    rw [hcur] at h
    simp only [Option.some_bind] at h
    have hc2 : (step_record st det.1 cur).counted = true := by
      rw [step_record_counted, hr]
      exact hc
    rw [if_neg] at h
    · simp only [Option.some.injEq] at h
      subst h
      exact ⟨rfl, ⟨step_record st det.1 cur,
        alookup_ainsert_self det.1 _ st.crossing_records, hc2⟩⟩
    · intro hcond
      rw [hcond.1] at hc2
      cases hc2

/-- C8: on every live step a record whose counted flag is true keeps it true
(and the detection step for that id leaves every counter untouched); over a
full frame the record is either evicted or still counted, so counted
transitions false to true at most once during a track's lifetime. -/
theorem C8_counted_monotone :
    (∀ (position : PositionConfig) (st : TrackerState) (det : Nat × Box)
        (st' : TrackerState) (r : CrossingRecord),
      process_detection position st det = some st' →
      alookup det.1 st.crossing_records = some r → r.counted = true →
      st'.counts = st.counts ∧
        ∃ r', alookup det.1 st'.crossing_records = some r' ∧ r'.counted = true) ∧
    (∀ (position : PositionConfig) (st : TrackerState)
        (detections : List (Nat × Box)) (st' : TrackerState) (id : Nat)
        (r : CrossingRecord),
      process_frame position st detections = some st' → wf_maps st →
      alookup id st.crossing_records = some r → r.counted = true →
      alookup id st'.crossing_records = none ∨
        ∃ r', alookup id st'.crossing_records = some r' ∧ r'.counted = true) := by
  refine ⟨process_detection_counted_stays, ?_⟩
  intro position st detections st' id r h hw hr hc
  rw [process_frame] at h
  cases hf : detections.foldlM (process_detection position) st with
  | none => rw [hf] at h; cases h
  | some st1 =>
    rw [hf] at h
    simp only [Option.map_some', Option.some.injEq] at h
    subst h
    have hP : (∃ r', alookup id st1.crossing_records = some r' ∧ r'.counted = true) ∧
        wf_maps st1 := by
      refine option_foldlM_preserve (process_detection position)
        (fun s => (∃ r', alookup id s.crossing_records = some r' ∧ r'.counted = true) ∧
          wf_maps s)
        ?_ detections st st1 hf ⟨⟨r, hr, hc⟩, hw⟩
      intro s a s' hs hp
      obtain ⟨⟨r0, hr0, hc0⟩, hw0⟩ := hp
      refine ⟨?_, process_detection_wf position s a s' hs hw0⟩
      by_cases hid : a.1 = id
      · have hr0' : alookup a.1 s.crossing_records = some r0 := by
          rw [hid]; exact hr0
        obtain ⟨r', hr', hc'⟩ :=
          (process_detection_counted_stays position s a s' r0 hs hr0' hc0).2
        rw [hid] at hr'
        exact ⟨r', hr', hc'⟩
      · obtain ⟨r2, h1, h2, h3⟩ := process_detection_shape position s a s' hs
        refine ⟨r0, ?_, hc0⟩
        rw [h2, alookup_ainsert_ne id a.1 r2 _ hid]
        exact hr0
    obtain ⟨⟨r1, hr1, hc1⟩, hw1⟩ := hP
    by_cases hmem : id ∈ akeys st1.track_history
    · by_cases hact : id ∈ detections.map Prod.fst
      · right
        have hspec := (update_disappeared_id_spec st1 _ id hw1 hmem).1 hact
        exact ⟨r1, by rw [hspec.2.2]; exact hr1, hc1⟩
      · by_cases hcnt : max_disappeared < (alookup id st1.disappeared_tracks).getD 0 + 1
        · left
          exact ((update_disappeared_id_spec st1 _ id hw1 hmem).2.1 hact hcnt).2.1
        · right
          have hspec := (update_disappeared_id_spec st1 _ id hw1 hmem).2.2 hact hcnt
          exact ⟨r1, by rw [hspec.2.2]; exact hr1, hc1⟩
    · right
      have hspec := update_disappeared_absent_id st1 (detections.map Prod.fst) id hmem
      exact ⟨r1, by rw [hspec.2.1]; exact hr1, hc1⟩

/-- A state with one already counted track, used to witness C8. -/
def counted_state : TrackerState :=
  ⟨[(1, [⟨0, 250⟩])], [(1, ⟨some .inside, some .outside, true⟩)], ⟨-1, 0, 1⟩, [(1, 0)]⟩

/-- C8 witness: processing a new detection of the counted track changes no
counter and keeps the record counted. -/
theorem C8_witness :
    ∃ st', process_detection scenario_position counted_state (1, scenario_box 240) = some st' ∧
      st'.counts = counted_state.counts ∧
      ∃ r', alookup 1 st'.crossing_records = some r' ∧ r'.counted = true := by
  cases hq : process_detection scenario_position counted_state (1, scenario_box 240) with
  | none => exact absurd hq (by decide)
  | some st' =>
    have h := C8_counted_monotone.1 scenario_position counted_state
      (1, scenario_box 240) st' ⟨some .inside, some .outside, true⟩ hq rfl rfl
    exact ⟨st', rfl, h.1, h.2⟩

/-- C10: when the crossing check fires (record not counted, side differs from
first_position, history long enough) but _verify_crossing rejects, the
detection step only appends to the history and refreshes the record's
first/last bookkeeping: counters, counted flag and disappearance counters
are unchanged; and the very same state of affairs with _verify_crossing
accepting counts the crossing, so a once-rejected track is still eligible
on any later frame whose side differs from first_position. -/
theorem C10_rejected_crossing (position : PositionConfig) (st : TrackerState)
    (det : Nat × Box) (cur : Side)
    (hcur : current_position position (center det.2) = some cur)
    (hcnt : (step_record st det.1 cur).counted = false)
    (hne : (step_record st det.1 cur).first_position ≠ some cur)
    (hlen : min_track_length ≤ (new_history st det.1 (center det.2)).length) :
    (verify_crossing (new_history st det.1 (center det.2)) position 1 = some false →
      process_detection position st det =
        some { st with
          track_history :=
            ainsert det.1 (new_history st det.1 (center det.2)) st.track_history,
          crossing_records :=
            ainsert det.1 (step_record st det.1 cur) st.crossing_records }) ∧
    (verify_crossing (new_history st det.1 (center det.2)) position 1 = some true →
      process_detection position st det =
        some { st with
          track_history :=
            ainsert det.1 (new_history st det.1 (center det.2)) st.track_history,
          crossing_records :=
            ainsert det.1 { step_record st det.1 cur with counted := true }
              st.crossing_records,
          counts := accept_counts st.counts (step_record st det.1 cur).first_position cur }) := by
  constructor <;> intro hv <;>
    rw [process_detection, hcur] <;>
    simp only [Option.some_bind] <;>
    rw [if_pos ⟨hcnt, hne, hlen⟩, hv]

/-- A state in which the crossing check has everything it needs but whose
history lies entirely on one side of _verify_crossing's down rule. -/
def rejected_state : TrackerState :=
  ⟨[(1, [⟨0, 200⟩, ⟨0, 200⟩])], [(1, ⟨some .inside, some .inside, false⟩)],
    ⟨0, 0, 0⟩, [(1, 0)]⟩

/-- C10 witness: the concrete rejected check leaves counters and counted
untouched, only history and record bookkeeping move. -/
theorem C10_witness :
    process_detection scenario_position rejected_state (1, scenario_box 199) =
      some { rejected_state with
        track_history :=
          ainsert 1 (new_history rejected_state 1 (center (scenario_box 199)))
            rejected_state.track_history,
        crossing_records :=
          ainsert 1 (step_record rejected_state 1 .outside)
            rejected_state.crossing_records } :=
  (C10_rejected_crossing scenario_position rejected_state (1, scenario_box 199)
    .outside (by decide) (by decide) (by decide) (by decide)).1 (by decide)

/-- Splitting process_frame into its detection fold and the disappearance
bookkeeping. -/
theorem process_frame_decomp (position : PositionConfig) (st : TrackerState)
    (dets : List (Nat × Box)) (st' : TrackerState)
    (h : process_frame position st dets = some st') :
    ∃ st1, dets.foldlM (process_detection position) st = some st1 ∧
      st' = update_disappeared_tracks st1 (dets.map Prod.fst) := by
  rw [process_frame] at h
  cases hf : dets.foldlM (process_detection position) st with
  | none => rw [hf] at h; cases h
  | some st1 =>
    rw [hf] at h
    simp only [Option.map_some', Option.some.injEq] at h
    exact ⟨st1, rfl, h.symm⟩

/-- The detection fold of a frame not containing id leaves id's bindings
alone. -/
theorem foldlM_detections_other (position : PositionConfig) (id : Nat) :
    ∀ (dets : List (Nat × Box)), id ∉ dets.map Prod.fst →
      ∀ (st st1 : TrackerState),
        dets.foldlM (process_detection position) st = some st1 →
        alookup id st1.track_history = alookup id st.track_history ∧
        alookup id st1.crossing_records = alookup id st.crossing_records ∧
        alookup id st1.disappeared_tracks = alookup id st.disappeared_tracks := by
  intro dets
  induction dets with
  | nil =>
    intro _ st st1 h
    simp only [List.foldlM_nil] at h
    cases h
    exact ⟨rfl, rfl, rfl⟩
  | cons a t ih =>
    intro hmem st st1 h
    simp only [List.foldlM_cons] at h
    cases hg : process_detection position st a with
    | none => rw [hg] at h; cases h
    | some s1 =>
      rw [hg] at h
      have hid : a.1 ≠ id := by
        intro hh
        apply hmem
        rw [List.map_cons]
        exact hh ▸ List.mem_cons_self _ _
      have ht : id ∉ t.map Prod.fst := by
        intro hh
        apply hmem
        rw [List.map_cons]
        exact List.mem_cons_of_mem _ hh
      obtain ⟨r2, h1, h2, h3⟩ := process_detection_shape position st a s1 hg
      have hrec := ih ht s1 st1 h
      refine ⟨?_, ?_, ?_⟩
      · rw [hrec.1, h1, alookup_ainsert_ne id a.1 _ _ hid]
      · rw [hrec.2.1, h2, alookup_ainsert_ne id a.1 _ _ hid]
      · rw [hrec.2.2, h3]

/-- An evicted id stays untouched by a frame that does not re-detect it. -/
theorem process_frame_evicted_stays (position : PositionConfig)
    (st st' : TrackerState) (dets : List (Nat × Box)) (id : Nat)
    (h : process_frame position st dets = some st') (hid : id ∉ dets.map Prod.fst)
    (h1 : alookup id st.track_history = none)
    (h2 : alookup id st.crossing_records = none)
    (h3 : alookup id st.disappeared_tracks = none) :
    alookup id st'.track_history = none ∧ alookup id st'.crossing_records = none ∧
      alookup id st'.disappeared_tracks = none := by
  obtain ⟨st1, hf, rfl⟩ := process_frame_decomp position st dets st' h
  have hA := foldlM_detections_other position id dets hid st st1 hf
  have hmem : id ∉ akeys st1.track_history := by
    rw [← alookup_eq_none_iff, hA.1]
    exact h1
  have hB := update_disappeared_absent_id st1 (dets.map Prod.fst) id hmem
  refine ⟨?_, ?_, ?_⟩
  · rw [hB.1, hA.1]; exact h1
  · rw [hB.2.1, hA.2.1]; exact h2
  · rw [hB.2.2, hA.2.2]; exact h3

/-- An evicted id stays untouched by any run that never re-detects it. -/
theorem run_frames_evicted_stays (position : PositionConfig) (id : Nat) :
    ∀ (frames : List (List (Nat × Box))) (st st' : TrackerState),
      run_frames position st frames = some st' →
      (∀ dets ∈ frames, id ∉ dets.map Prod.fst) →
      alookup id st.track_history = none →
      alookup id st.crossing_records = none →
      alookup id st.disappeared_tracks = none →
      alookup id st'.track_history = none ∧ alookup id st'.crossing_records = none ∧
        alookup id st'.disappeared_tracks = none := by
  intro frames
  induction frames with
  | nil =>
    intro st st' h _ h1 h2 h3
    simp only [run_frames, List.foldlM_nil] at h
    cases h
    exact ⟨h1, h2, h3⟩
  | cons dets rest ih =>
    intro st st' h habs h1 h2 h3
    simp only [run_frames, List.foldlM_cons] at h
    cases hpf : process_frame position st dets with
    | none => rw [hpf] at h; cases h
    | some st1 =>
      rw [hpf] at h
      have hstep := process_frame_evicted_stays position st st1 dets id hpf
        (habs dets (List.mem_cons_self _ _)) h1 h2 h3
      exact ih st1 st' h (fun d hd => habs d (List.mem_cons_of_mem _ hd))
        hstep.1 hstep.2.1 hstep.2.2

/-- What one frame without id does to a live id: evict it if its counter has
reached the threshold, otherwise increment the counter and keep everything
else. -/
theorem process_frame_absent_present (position : PositionConfig)
    (st st' : TrackerState) (dets : List (Nat × Box)) (id : Nat)
    (h : process_frame position st dets = some st') (hid : id ∉ dets.map Prod.fst)
    (hw : wf_maps st) (hmem : id ∈ akeys st.track_history) :
    (max_disappeared < (alookup id st.disappeared_tracks).getD 0 + 1 →
      alookup id st'.track_history = none ∧ alookup id st'.crossing_records = none ∧
        alookup id st'.disappeared_tracks = none) ∧
    (¬ max_disappeared < (alookup id st.disappeared_tracks).getD 0 + 1 →
      alookup id st'.track_history = alookup id st.track_history ∧
      alookup id st'.crossing_records = alookup id st.crossing_records ∧
      alookup id st'.disappeared_tracks =
        some ((alookup id st.disappeared_tracks).getD 0 + 1) ∧
      wf_maps st') := by
  obtain ⟨st1, hf, rfl⟩ := process_frame_decomp position st dets st' h
  have hA := foldlM_detections_other position id dets hid st st1 hf
  have hw1 : wf_maps st1 :=
    option_foldlM_preserve (process_detection position) wf_maps
      (fun s a s' hs hp => process_detection_wf position s a s' hs hp)
      dets st st1 hf hw
  have hne : alookup id st.track_history ≠ none := fun hnone =>
    ((alookup_eq_none_iff id st.track_history).mp hnone) hmem
  have hmem1 : id ∈ akeys st1.track_history := by
    by_contra hnot
    exact hne (by rw [← hA.1]; exact (alookup_eq_none_iff id st1.track_history).mpr hnot)
  have hspec := update_disappeared_id_spec st1 (dets.map Prod.fst) id hw1 hmem1
  constructor
  · intro hcnt
    have hcnt1 : max_disappeared < (alookup id st1.disappeared_tracks).getD 0 + 1 := by
      rw [hA.2.2]; exact hcnt
    exact hspec.2.1 hid hcnt1
  · intro hcnt
    have hcnt1 : ¬ max_disappeared < (alookup id st1.disappeared_tracks).getD 0 + 1 := by
      rw [hA.2.2]; exact hcnt
    have hkeep := hspec.2.2 hid hcnt1
    refine ⟨?_, ?_, ?_, update_disappeared_wf st1 _ hw1⟩
    · rw [hkeep.2.1, hA.1]
    · rw [hkeep.2.2, hA.2.1]
    · rw [hkeep.1, hA.2.2]

/-- A live track left undetected for enough consecutive frames is evicted:
its history, crossing record and disappearance counter are all gone. -/
theorem absent_run_evicts (position : PositionConfig) (id : Nat) :
    ∀ (frames : List (List (Nat × Box))) (st st' : TrackerState),
      run_frames position st frames = some st' →
      (∀ dets ∈ frames, id ∉ dets.map Prod.fst) →
      wf_maps st → id ∈ akeys st.track_history →
      max_disappeared < (alookup id st.disappeared_tracks).getD 0 + frames.length →
      1 ≤ frames.length →
      alookup id st'.track_history = none ∧ alookup id st'.crossing_records = none ∧
        alookup id st'.disappeared_tracks = none := by
  intro frames
  induction frames with
  | nil =>
    intro st st' _ _ _ _ _ hlen
    simp at hlen
  | cons dets rest ih =>
    intro st st' hrun habs hw hmem hcnt _
    simp only [run_frames, List.foldlM_cons] at hrun
    cases hpf : process_frame position st dets with
    | none => rw [hpf] at hrun; cases hrun
    | some st1 =>
      rw [hpf] at hrun
      have habs1 : ∀ d ∈ rest, id ∉ d.map Prod.fst :=
        fun d hd => habs d (List.mem_cons_of_mem _ hd)
      have hid0 : id ∉ dets.map Prod.fst := habs dets (List.mem_cons_self _ _)
      have hstep := process_frame_absent_present position st st1 dets id hpf hid0 hw hmem
      by_cases hc1 : max_disappeared < (alookup id st.disappeared_tracks).getD 0 + 1
      · have hnone := hstep.1 hc1
        exact run_frames_evicted_stays position id rest st1 st' hrun habs1
          hnone.1 hnone.2.1 hnone.2.2
      · have hkeep := hstep.2 hc1
        have hne1 : alookup id st1.track_history ≠ none := by
          rw [hkeep.1]
          exact fun hnone => ((alookup_eq_none_iff id st.track_history).mp hnone) hmem
        have hmem1 : id ∈ akeys st1.track_history := by
          by_contra hnot
          exact hne1 ((alookup_eq_none_iff id st1.track_history).mpr hnot)
        rw [List.length_cons] at hcnt
        have hlen1 : 1 ≤ rest.length := by omega
        have hcnt1 : max_disappeared <
            (alookup id st1.disappeared_tracks).getD 0 + rest.length := by
          rw [hkeep.2.2.1, Option.getD_some]
          omega
        exact ih st1 st' hrun habs1 hkeep.2.2.2 hmem1 hcnt1 hlen1

/-- A detection of an id with no history and no record starts a fresh track:
a one-point history and a record with counted = false. -/
theorem process_detection_fresh (position : PositionConfig) (st : TrackerState)
    (det : Nat × Box) (st' : TrackerState)
    (hh : alookup det.1 st.track_history = none)
    (hr : alookup det.1 st.crossing_records = none)
    (h : process_detection position st det = some st') :
    alookup det.1 st'.track_history = some [center det.2] ∧
      ∃ r, alookup det.1 st'.crossing_records = some r ∧ r.counted = false ∧
        r.first_position = r.last_position := by
  have hnh : new_history st det.1 (center det.2) = [center det.2] := by
    rw [new_history, hh]
    rfl
  have hsr : ∀ cur, step_record st det.1 cur = ⟨some cur, some cur, false⟩ := by
    intro cur
    rw [step_record, hr]
    rfl
  rw [process_detection] at h
  cases hcur : current_position position (center det.2) with
  | none => rw [hcur] at h; cases h
  | some cur =>
    rw [hcur] at h
    simp only [Option.some_bind] at h
    rw [if_neg] at h
    · simp only [Option.some.injEq] at h
      subst h
      refine ⟨?_, ⟨step_record st det.1 cur, alookup_ainsert_self det.1 _ _, ?_, ?_⟩⟩
      · rw [alookup_ainsert_self det.1 _ _, hnh]
      · rw [hsr]
      · rw [hsr]
    · rw [hsr]
      simp

/-- C7: a live track left undetected for enough consecutive frames (its
counter plus the frames exceeding the threshold 90) is evicted with its
history, crossing record and disappearance counter all removed in that run;
re-observing an id with no state starts a fresh track with counted = false;
an id active in the current frame has its counter reset to 0 and keeps its
history and record. -/
theorem C7_track_lifecycle :
    (∀ (position : PositionConfig) (id : Nat) (frames : List (List (Nat × Box)))
        (st st' : TrackerState),
      run_frames position st frames = some st' →
      (∀ dets ∈ frames, id ∉ dets.map Prod.fst) →
      wf_maps st → id ∈ akeys st.track_history →
      max_disappeared < (alookup id st.disappeared_tracks).getD 0 + frames.length →
      1 ≤ frames.length →
      alookup id st'.track_history = none ∧ alookup id st'.crossing_records = none ∧
        alookup id st'.disappeared_tracks = none) ∧
    (∀ (position : PositionConfig) (st : TrackerState) (det : Nat × Box)
        (st' : TrackerState),
      alookup det.1 st.track_history = none →
      alookup det.1 st.crossing_records = none →
      process_detection position st det = some st' →
      alookup det.1 st'.track_history = some [center det.2] ∧
        ∃ r, alookup det.1 st'.crossing_records = some r ∧ r.counted = false ∧
          r.first_position = r.last_position) ∧
    (∀ (st : TrackerState) (active : List Nat) (id : Nat),
      wf_maps st → id ∈ akeys st.track_history → id ∈ active →
      alookup id (update_disappeared_tracks st active).disappeared_tracks = some 0 ∧
      alookup id (update_disappeared_tracks st active).track_history =
        alookup id st.track_history ∧
      alookup id (update_disappeared_tracks st active).crossing_records =
        alookup id st.crossing_records) :=
  ⟨fun position id frames st st' h1 h2 h3 h4 h5 h6 =>
      absent_run_evicts position id frames st st' h1 h2 h3 h4 h5 h6,
    fun position st det st' hh hr h =>
      process_detection_fresh position st det st' hh hr h,
    fun st active id hw hmem hact =>
      (update_disappeared_id_spec st active id hw hmem).1 hact⟩

/-- A freshly observed track, used to witness C7. -/
def c7_state : TrackerState :=
  ⟨[(5, [⟨0, 10⟩])], [(5, ⟨some .inside, some .inside, false⟩)], ⟨0, 0, 0⟩, [(5, 0)]⟩

/-- C7 witness: the concrete track 5, absent for 91 consecutive frames, is
fully evicted. -/
theorem C7_witness :
    ∃ st', run_frames scenario_position c7_state (List.replicate 91 []) = some st' ∧
      alookup 5 st'.track_history = none ∧ alookup 5 st'.crossing_records = none ∧
        alookup 5 st'.disappeared_tracks = none := by
  cases hq : run_frames scenario_position c7_state (List.replicate 91 []) with
  | none => exact absurd hq (by decide)
  | some st' =>
    exact ⟨st', rfl,
      C7_track_lifecycle.1 scenario_position 5 (List.replicate 91 []) c7_state st' hq
        (by
          intro dets hd
          rw [List.eq_of_mem_replicate hd]
          simp)
        ⟨by decide, by decide, by decide⟩ (by decide) (by decide) (by decide)⟩

/-! ### CSVLogger lemmas -/

theorem log_counts_emit (L : CSVLogger) (f : Nat) (c : Counts) (force : Bool)
    (h : (should_log L f || force) = true) :
    log_counts L f c force =
      (true,
        some ⟨get_timestamp L f, c.total,
          c.incoming - L.interval_start_counts.incoming,
          c.outgoing - L.interval_start_counts.outgoing⟩,
        { L with last_interval := current_interval L f, interval_start_counts := c }) := by
  rw [log_counts, if_pos h]

theorem log_counts_skip (L : CSVLogger) (f : Nat) (c : Counts) (force : Bool)
    (h : (should_log L f || force) = false) :
    log_counts L f c force = (false, none, L) := by
  rw [log_counts, if_neg]
  simp [h]

theorem run_log_cons_emit (L : CSVLogger) (f : Nat) (c : Counts)
    (rest : List (Nat × Counts)) (h : should_log L f = true) :
    run_log L ((f, c) :: rest) =
      ((run_log { L with
          last_interval := current_interval L f,
          interval_start_counts := c } rest).1,
        (f, ⟨get_timestamp L f, c.total,
          c.incoming - L.interval_start_counts.incoming,
          c.outgoing - L.interval_start_counts.outgoing⟩) ::
          (run_log { L with
            last_interval := current_interval L f,
            interval_start_counts := c } rest).2) := by
  rw [run_log, log_counts_emit L f c false (by simp [h])]

theorem run_log_cons_skip (L : CSVLogger) (f : Nat) (c : Counts)
    (rest : List (Nat × Counts)) (h : should_log L f = false) :
    run_log L ((f, c) :: rest) = run_log L rest := by
  rw [run_log, log_counts_skip L f c false (by simp [h])]

/-- Along a force = false run the emitted rows carry strictly increasing
interval indices, all above the starting last_interval, while fps and
interval_seconds never change. -/
theorem run_log_invariant (fps iv : Nat) :
    ∀ (calls : List (Nat × Counts)) (L : CSVLogger),
      L.fps = fps → L.interval_seconds = iv →
      ((run_log L calls).1.fps = fps ∧ (run_log L calls).1.interval_seconds = iv) ∧
      (∀ pr ∈ (run_log L calls).2, L.last_interval < pr.1 / fps / iv) ∧
      List.Pairwise (fun a b => a.1 / fps / iv < b.1 / fps / iv) (run_log L calls).2 := by
  intro calls
  induction calls with
  | nil =>
    intro L h1 h2
    exact ⟨⟨h1, h2⟩, by simp [run_log], by simp [run_log]⟩
  | cons pr rest ih =>
    intro L h1 h2
    obtain ⟨f, c⟩ := pr
    cases hsl : should_log L f with
    | false =>
      rw [run_log_cons_skip L f c rest hsl]
      exact ih L h1 h2
    | true =>
      rw [run_log_cons_emit L f c rest hsl]
      obtain ⟨hpres, hbound, hpair⟩ :=
        ih { L with
          last_interval := current_interval L f,
          interval_start_counts := c } h1 h2
      have hcur : current_interval L f = f / fps / iv := by
        rw [current_interval, h1, h2]
      have hsl' : L.last_interval < f / fps / iv := by
        rw [should_log] at hsl
        have h3 := of_decide_eq_true hsl
        rw [hcur] at h3
        exact h3
      refine ⟨hpres, ?_, ?_⟩
      · intro q hq
        rcases List.mem_cons.mp hq with hq1 | hq2
        · rw [hq1]
          exact hsl'
        · have h4 : current_interval L f < q.1 / fps / iv := hbound q hq2
          rw [hcur] at h4
          omega
      · rw [List.pairwise_cons]
        refine ⟨?_, hpair⟩
        intro q hq
        have h4 : current_interval L f < q.1 / fps / iv := hbound q hq
        rw [hcur] at h4
        simpa using h4

/-- C6: log_counts emits a row iff the frame's interval index exceeds
last_interval or force is set; the row holds the frame's timestamp, the
running total and the incoming/outgoing deltas against the stored baseline;
on emission last_interval becomes the current interval index and the
baseline is replaced by the counts, otherwise nothing changes; with force
off at most one row is ever emitted per interval index, and the deltas of
two consecutive emitted rows sum to the counter change since the baseline
before the first of them. -/
theorem C6_log_counts :
    (∀ (L : CSVLogger) (f : Nat) (c : Counts) (force : Bool),
      (log_counts L f c force).1 = true ↔
        (L.last_interval < current_interval L f ∨ force = true)) ∧
    (∀ (L : CSVLogger) (f : Nat) (c : Counts) (force : Bool),
      (log_counts L f c force).1 = true →
      (log_counts L f c force).2.1 =
        some ⟨get_timestamp L f, c.total,
          c.incoming - L.interval_start_counts.incoming,
          c.outgoing - L.interval_start_counts.outgoing⟩ ∧
      (log_counts L f c force).2.2 =
        { L with
          last_interval := current_interval L f,
          interval_start_counts := c }) ∧
    (∀ (L : CSVLogger) (f : Nat) (c : Counts) (force : Bool),
      (log_counts L f c force).1 = false →
      (log_counts L f c force).2.1 = none ∧ (log_counts L f c force).2.2 = L) ∧
    (∀ (fps iv : Nat) (calls : List (Nat × Counts)) (L : CSVLogger),
      L.fps = fps → L.interval_seconds = iv →
      List.Pairwise (fun a b => a.1 / fps / iv ≠ b.1 / fps / iv) (run_log L calls).2) ∧
    (∀ (L : CSVLogger) (f1 : Nat) (c1 : Counts) (force1 : Bool) (f2 : Nat)
        (c2 : Counts) (force2 : Bool) (r1 r2 : LogRecord) (L1 L2 : CSVLogger),
      log_counts L f1 c1 force1 = (true, some r1, L1) →
      log_counts L1 f2 c2 force2 = (true, some r2, L2) →
      r1.incoming_last_interval + r2.incoming_last_interval =
        c2.incoming - L.interval_start_counts.incoming ∧
      r1.outgoing_last_interval + r2.outgoing_last_interval =
        c2.outgoing - L.interval_start_counts.outgoing) := by
  have hemit : ∀ (L : CSVLogger) (f : Nat) (c : Counts) (force : Bool)
      (r : LogRecord) (L' : CSVLogger),
      log_counts L f c force = (true, some r, L') →
      r = ⟨get_timestamp L f, c.total,
          c.incoming - L.interval_start_counts.incoming,
          c.outgoing - L.interval_start_counts.outgoing⟩ ∧
        L' = { L with
          last_interval := current_interval L f,
          interval_start_counts := c } := by
    intro L f c force r L' h
    cases hb : (should_log L f || force) with
    | false =>
      rw [log_counts_skip L f c force hb] at h
      simp at h
    | true =>
      rw [log_counts_emit L f c force hb] at h
      simp only [Prod.mk.injEq, Option.some.injEq] at h
      exact ⟨h.2.1.symm, h.2.2.symm⟩
  refine ⟨?_, ?_, ?_, ?_, ?_⟩
  · intro L f c force
    constructor
    · intro h
      rw [log_counts] at h
      split_ifs at h with hb
      · simp only [Bool.or_eq_true] at hb
        rcases hb with h1 | h1
        · left
          rw [should_log] at h1
          exact of_decide_eq_true h1
        · right; exact h1
    · intro h
      rw [log_counts]
      split_ifs with hb
      · rfl
      · exfalso
        apply hb
        simp only [Bool.or_eq_true]
        rcases h with h1 | h1
        · left
          rw [should_log]
          exact decide_eq_true h1
        · right; exact h1
  · intro L f c force h
    cases hb : (should_log L f || force) with
    | false =>
      rw [log_counts_skip L f c force hb] at h
      cases h
    | true =>
      rw [log_counts_emit L f c force hb]
      exact ⟨rfl, rfl⟩
  · intro L f c force h
    cases hb : (should_log L f || force) with
    | false =>
      rw [log_counts_skip L f c force hb]
      exact ⟨rfl, rfl⟩
    | true =>
      rw [log_counts_emit L f c force hb] at h
      cases h
  · intro fps iv calls L h1 h2
    exact ((run_log_invariant fps iv calls L h1 h2).2.2).imp (fun h => Nat.ne_of_lt h)
  · intro L f1 c1 force1 f2 c2 force2 r1 r2 L1 L2 h1 h2
    obtain ⟨hr1, hL1⟩ := hemit L f1 c1 force1 r1 L1 h1
    obtain ⟨hr2, hL2⟩ := hemit L1 f2 c2 force2 r2 L2 h2
    subst hL1
    rw [hr1, hr2]
    constructor <;> simp

/-- A concrete logger state (fps 30, one-minute intervals), used to witness
C6. -/
def logger_example : CSVLogger := ⟨0, 30, 0, ⟨0, 0, 0⟩, 60⟩

/-- C6 witness: at frame 1800 (interval index 1 > 0) the concrete logger
emits the expected row. -/
theorem C6_witness :
    (log_counts logger_example 1800 ⟨3, 4, 1⟩ false).2.1 =
      some ⟨get_timestamp logger_example 1800, (⟨3, 4, 1⟩ : Counts).total,
        (⟨3, 4, 1⟩ : Counts).incoming - logger_example.interval_start_counts.incoming,
        (⟨3, 4, 1⟩ : Counts).outgoing - logger_example.interval_start_counts.outgoing⟩ :=
  (C6_log_counts.2.1 logger_example 1800 ⟨3, 4, 1⟩ false (by decide)).1

end Footfall
